import Mathlib

/-!
Verification of the air-quality dashboard core: the PM2.5 health-risk
categorizer, the spatial interpolation heatmap, the latest-observation
aggregator, duplicate-safe ingestion, and the cache layer of
`src/backend/main.py`, `src/worker/fetch_observations_and_insert.py`,
`src/worker/init_db.py` and `src/dashboard/app.py`.

Real numbers of the Python source are modelled as exact rationals `ℚ`;
timestamps as naturals; SQL rows as lists of structures.
-/

namespace AirQuality

/-- Response of the `/health-risk/{pm25_value}` endpoint
(`src/backend/main.py`, `health_risk`): the input value echoed back,
a risk level, a display color and an advisory string. -/
structure HealthRiskResponse where
  pm25 : ℚ
  level : String
  color : String
  advice : String
deriving DecidableEq, Repr

/-- Embedding of `health_risk` from `src/backend/main.py` (lines 688-726):
a chain of inclusive upper-bound comparisons assigning the six US-EPA
PM2.5 tiers. -/
def health_risk (pm25_value : ℚ) : HealthRiskResponse :=
  if pm25_value ≤ 12.0 then
    ⟨pm25_value, "Good", "#00e400",
      "Air quality is satisfactory, and air pollution poses little or no risk."⟩
  else if pm25_value ≤ 35.4 then
    ⟨pm25_value, "Moderate", "#ffff00",
      "Air quality is acceptable. However, there may be a risk for some people, particularly those who are unusually sensitive to air pollution."⟩
  else if pm25_value ≤ 55.4 then
    ⟨pm25_value, "Unhealthy for Sensitive Groups", "#ff7e00",
      "Members of sensitive groups may experience health effects. The general public is less likely to be affected."⟩
  else if pm25_value ≤ 150.4 then
    ⟨pm25_value, "Unhealthy", "#ff0000",
      "Some members of the general public may experience health effects; members of sensitive groups may experience more serious health effects."⟩
  else if pm25_value ≤ 250.4 then
    ⟨pm25_value, "Very Unhealthy", "#8f3f97",
      "Health alert: The risk of health effects is increased for everyone."⟩
  else
    ⟨pm25_value, "Hazardous", "#7e0023",
      "Health warning of emergency conditions: everyone is more likely to be affected."⟩

/-- Rank of a risk level in the ordering
Good < Moderate < Unhealthy for Sensitive Groups < Unhealthy <
Very Unhealthy < Hazardous. -/
def levelRank (s : String) : ℕ :=
  if s = "Good" then 0
  else if s = "Moderate" then 1
  else if s = "Unhealthy for Sensitive Groups" then 2
  else if s = "Unhealthy" then 3
  else if s = "Very Unhealthy" then 4
  else 5

end AirQuality

namespace AirQuality

/-- C1: the PM2.5 categorizer assigns the 6-tier classification with
inclusive upper bounds at 12.0, 35.4, 55.4, 150.4, 250.4; in particular
`health_risk 12.0` is Good and `health_risk 12.01` is Moderate. -/
theorem c1_pm25_tiers (v : ℚ) :
    (v ≤ 12.0 → (health_risk v).level = "Good") ∧
    (12.0 < v → v ≤ 35.4 → (health_risk v).level = "Moderate") ∧
    (35.4 < v → v ≤ 55.4 → (health_risk v).level = "Unhealthy for Sensitive Groups") ∧
    (55.4 < v → v ≤ 150.4 → (health_risk v).level = "Unhealthy") ∧
    (150.4 < v → v ≤ 250.4 → (health_risk v).level = "Very Unhealthy") ∧
    (250.4 < v → (health_risk v).level = "Hazardous") ∧
    (health_risk 12.0).level = "Good" ∧
    (health_risk 12.01).level = "Moderate" := by
  refine ⟨?_, ?_, ?_, ?_, ?_, ?_, ?_, ?_⟩ <;>
    first
      | (intro h1; unfold health_risk; split_ifs <;> first | rfl | linarith)
      | (intro h1 h2; unfold health_risk; split_ifs <;> first | rfl | linarith)
      | (unfold health_risk; norm_num)

/-- Witness for C1 at the boundary inputs 12.0 and 12.01. -/
theorem c1_pm25_tiers_witness :
    (health_risk 12.0).level = "Good" ∧ (health_risk 12.01).level = "Moderate" :=
  ⟨(c1_pm25_tiers 12.0).1 (by norm_num),
    (c1_pm25_tiers 12.01).2.1 (by norm_num) (by norm_num)⟩

/-- C8: the PM2.5 categorizer is monotonic non-decreasing: a smaller value
never receives a strictly higher risk tier. -/
theorem c8_categorizer_monotone (v1 v2 : ℚ) (h : v1 ≤ v2) :
    levelRank (health_risk v1).level ≤ levelRank (health_risk v2).level := by
  unfold health_risk
  split_ifs <;> first | (dsimp only; decide) | linarith

/-- Witness for C8 at 10 ≤ 100. -/
theorem c8_categorizer_monotone_witness :
    levelRank (health_risk 10).level ≤ levelRank (health_risk 100).level :=
  c8_categorizer_monotone 10 100 (by norm_num)

/-- A row of the `observations` table (`src/worker/init_db.py`,
`create_tables`): `(station_id, ts, param, value)`; the table carries
`UNIQUE(station_id, ts, param)`. -/
structure Obs where
  station_id : String
  ts : ℕ
  param : String
  value : ℚ
deriving DecidableEq, Repr

/-- Embedding of the single `INSERT INTO observations ... ON CONFLICT
(station_id, ts, param) DO NOTHING` statement of `insert_observations`
(`src/worker/fetch_observations_and_insert.py`, lines 146-150): append the
row unless a row with the same key is already present. -/
def insertObservation (log : List Obs) (o : Obs) : List Obs :=
  if log.any (fun x =>
      x.station_id == o.station_id && x.ts == o.ts && x.param == o.param)
  then log
  else log ++ [o]

/-- The ordering `ORDER BY param, ts DESC` used by `latest_for_station`
(`src/backend/main.py`, lines 370-377). -/
def sqlOrder (a b : Obs) : Prop :=
  a.param < b.param ∨ (a.param = b.param ∧ b.ts ≤ a.ts)

instance : DecidableRel sqlOrder := fun a b =>
  inferInstanceAs (Decidable (a.param < b.param ∨ (a.param = b.param ∧ b.ts ≤ a.ts)))

instance : IsTotal Obs sqlOrder := by
  constructor
  intro a b
  rcases lt_trichotomy a.param b.param with h | h | h
  · exact Or.inl (Or.inl h)
  · rcases le_total b.ts a.ts with h' | h'
    · exact Or.inl (Or.inr ⟨h, h'⟩)
    · exact Or.inr (Or.inr ⟨h.symm, h'⟩)
  · exact Or.inr (Or.inl h)

instance : IsTrans Obs sqlOrder := by
  constructor
  intro a b c hab hbc
  rcases hab with h1 | ⟨h1, h1'⟩ <;> rcases hbc with h2 | ⟨h2, h2'⟩
  · exact Or.inl (lt_trans h1 h2)
  · exact Or.inl (h2 ▸ h1)
  · exact Or.inl (h1 ▸ h2)
  · exact Or.inr ⟨h1.trans h2, le_trans h2' h1'⟩

/-- The `DISTINCT ON (param)` step: keep the first row of each `param`
group of the sorted row list. -/
def distinctOnParam (seen : List String) : List Obs → List Obs
  | [] => []
  | o :: rest =>
    if o.param ∈ seen then distinctOnParam seen rest
    else o :: distinctOnParam (o.param :: seen) rest

/-- Embedding of the query of `latest_for_station` (`src/backend/main.py`,
lines 370-377): `SELECT DISTINCT ON (param) param, value, ts FROM
observations WHERE station_id = $1 ORDER BY param, ts DESC`, realized as
PostgreSQL computes it: filter, sort by the `ORDER BY` key, keep the first
row of each `param` group. -/
def latest_for_station (log : List Obs) (sid : String) : List Obs :=
  distinctOnParam []
    (List.insertionSort sqlOrder (log.filter (fun o => o.station_id == sid)))

lemma distinctOnParam_filter (p : String) :
    ∀ (l : List Obs) (seen : List String),
      (distinctOnParam seen l).filter (fun o => o.param == p) =
        if p ∈ seen then []
        else (l.find? (fun o => o.param == p)).toList := by
  intro l
  induction l with
  | nil =>
    intro seen
    simp only [distinctOnParam, List.filter_nil, List.find?_nil, Option.toList_none]
    split <;> rfl
  | cons o rest ih =>
    intro seen
    by_cases hop : o.param = p
    · subst hop
      by_cases hseen : o.param ∈ seen
      · rw [distinctOnParam, if_pos hseen, ih, if_pos hseen, if_pos hseen]
      · rw [distinctOnParam, if_neg hseen, if_neg hseen]
        rw [List.filter_cons]
        have hmem : o.param ∈ o.param :: seen := List.mem_cons_self _ _
        simp [List.find?, ih, hmem]
    · have hbeq : (o.param == p) = false := by simp [hop]
      by_cases hseen : o.param ∈ seen
      · rw [distinctOnParam, if_pos hseen, ih]
        simp [List.find?, hbeq]
      · rw [distinctOnParam, if_neg hseen, List.filter_cons]
        simp only [hbeq, Bool.false_eq_true, if_false]
        rw [ih]
        have hmemiff : p ∈ o.param :: seen ↔ p ∈ seen := by
          simp only [List.mem_cons]
          constructor
          · rintro (h | h)
            · exact absurd h.symm hop
            · exact h
          · exact fun h => Or.inr h
        by_cases hps : p ∈ seen
        · rw [if_pos (hmemiff.mpr hps), if_pos hps]
        · rw [if_neg (fun h => hps (hmemiff.mp h)), if_neg hps]
          simp [List.find?, hbeq]

lemma sorted_find?_max (p : String) :
    ∀ (l : List Obs), List.Sorted sqlOrder l →
      ∀ e : Obs, l.find? (fun o => o.param == p) = some e →
        e.param = p ∧ e ∈ l ∧ ∀ o ∈ l, o.param = p → o.ts ≤ e.ts := by
  intro l
  induction l with
  | nil => intro _ e he; simp at he
  | cons a rest ih =>
    intro hs e he
    rw [List.sorted_cons] at hs
    by_cases hap : a.param = p
    · have hbeq : (a.param == p) = true := by simp [hap]
      rw [show (a :: rest).find? (fun o => o.param == p) = some a by
        simp [List.find?, hbeq]] at he
      injection he with he
      subst he
      refine ⟨hap, List.mem_cons_self _ _, ?_⟩
      intro o ho hop
      rcases List.mem_cons.mp ho with rfl | ho
      · exact le_refl _
      · have hrel := hs.1 o ho
        rcases hrel with h | ⟨_, h⟩
        · exact absurd (hap.trans hop.symm) (ne_of_lt h)
        · exact h
    · have hbeq : (a.param == p) = false := by simp [hap]
      rw [show (a :: rest).find? (fun o => o.param == p) =
          rest.find? (fun o => o.param == p) by simp [List.find?, hbeq]] at he
      obtain ⟨hep, hemem, hemax⟩ := ih hs.2 e he
      refine ⟨hep, List.mem_cons_of_mem _ hemem, ?_⟩
      intro o ho hop
      rcases List.mem_cons.mp ho with rfl | ho
      · exact absurd hop hap
      · exact hemax o ho hop

/-- Core of claims C4 and C9: for every `(station, param)` that has at
least one observation, `latest_for_station` returns exactly one row for
that `param`, it is one of the station's rows for that `param`, and its
timestamp is maximal among them. -/
lemma latest_filter_spec (log : List Obs) (sid p : String)
    (h : ∃ o ∈ log, o.station_id = sid ∧ o.param = p) :
    ∃ e, (latest_for_station log sid).filter (fun o => o.param == p) = [e] ∧
      e ∈ log ∧ e.station_id = sid ∧ e.param = p ∧
      ∀ o ∈ log, o.station_id = sid → o.param = p → o.ts ≤ e.ts := by
  classical
  obtain ⟨w, hwmem, hwsid, hwp⟩ := h
  set l0 := log.filter (fun o => o.station_id == sid) with hl0
  set l1 := List.insertionSort sqlOrder l0 with hl1
  have hperm : l1.Perm l0 := List.perm_insertionSort _ _
  have hsorted : List.Sorted sqlOrder l1 := List.sorted_insertionSort _ _
  have hw0 : w ∈ l0 := by
    rw [hl0, List.mem_filter]
    exact ⟨hwmem, by simp [hwsid]⟩
  have hw1 : w ∈ l1 := hperm.mem_iff.mpr hw0
  have hfind : (l1.find? (fun o => o.param == p)).isSome := by
    rw [List.find?_isSome]
    exact ⟨w, hw1, by simp [hwp]⟩
  obtain ⟨e, he⟩ := Option.isSome_iff_exists.mp hfind
  obtain ⟨hep, hemem1, hemax1⟩ := sorted_find?_max p l1 hsorted e he
  have hemem0 : e ∈ l0 := hperm.mem_iff.mp hemem1
  have hemem : e ∈ log ∧ e.station_id = sid := by
    rw [hl0, List.mem_filter] at hemem0
    exact ⟨hemem0.1, by simpa using hemem0.2⟩
  refine ⟨e, ?_, hemem.1, hemem.2, hep, ?_⟩
  · unfold latest_for_station
    rw [← hl0, ← hl1, distinctOnParam_filter, he]
    simp
  · intro o ho hosid hop
    have ho1 : o ∈ l1 := by
      apply hperm.mem_iff.mpr
      rw [hl0, List.mem_filter]
      exact ⟨ho, by simp [hosid]⟩
    exact hemax1 o ho1 hop

/-- C4: for every station and parameter with at least one observation,
`latest_for_station` returns exactly one entry for that parameter, and it
is an observation of that station and parameter with maximal timestamp. -/
theorem c4_latest_per_param (log : List Obs) (sid p : String)
    (h : ∃ o ∈ log, o.station_id = sid ∧ o.param = p) :
    ∃ e, (latest_for_station log sid).filter (fun o => o.param == p) = [e] ∧
      e ∈ log ∧ e.station_id = sid ∧ e.param = p ∧
      ∀ o ∈ log, o.station_id = sid → o.param = p → o.ts ≤ e.ts :=
  latest_filter_spec log sid p h

/-- Concrete observation log used by the witnesses. -/
def logEx : List Obs :=
  [⟨"s1", 1, "pm25", 10⟩, ⟨"s1", 5, "pm25", 40⟩,
   ⟨"s1", 3, "pm10", 22⟩, ⟨"s2", 7, "pm25", 80⟩]

/-- Witness for C4 on a concrete four-row log. -/
theorem c4_latest_per_param_witness :
    ∃ e, (latest_for_station logEx "s1").filter (fun o => o.param == "pm25") = [e] ∧
      e ∈ logEx ∧ e.station_id = "s1" ∧ e.param = "pm25" ∧
      ∀ o ∈ logEx, o.station_id = "s1" → o.param = "pm25" → o.ts ≤ e.ts :=
  c4_latest_per_param logEx "s1" "pm25" (by decide)

/-- C5: ingesting the same observation tuple twice leaves the log exactly
as after ingesting it once, and `latest_for_station` agrees on the two
logs. -/
theorem c5_duplicate_ingest_noop (log : List Obs) (o : Obs) (sid : String) :
    insertObservation (insertObservation log o) o = insertObservation log o ∧
    latest_for_station (insertObservation (insertObservation log o) o) sid =
      latest_for_station (insertObservation log o) sid := by
  have hkey : (insertObservation log o).any (fun x =>
      x.station_id == o.station_id && x.ts == o.ts && x.param == o.param) = true := by
    unfold insertObservation
    split
    · next h => exact h
    · next h =>
      rw [List.any_append]
      simp
  have h1 : insertObservation (insertObservation log o) o = insertObservation log o := by
    set L := insertObservation log o with hL
    unfold insertObservation
    simp [hkey]
  exact ⟨h1, by rw [h1]⟩

/-- C9: under the `UNIQUE(station_id, ts, param)` invariant the
maximum-timestamp choice is unique — any two maximal observations for the
same station and parameter are equal — and `latest_for_station`
necessarily returns exactly that observation, so its result is uniquely
determined by the log and the documented tie-breaking rule is vacuous. -/
theorem c9_latest_deterministic (log : List Obs) (sid p : String)
    (huniq : ∀ a ∈ log, ∀ b ∈ log,
      a.station_id = b.station_id → a.ts = b.ts → a.param = b.param → a = b)
    (a b : Obs) (ha : a ∈ log) (hb : b ∈ log)
    (hasid : a.station_id = sid) (hbsid : b.station_id = sid)
    (hap : a.param = p) (hbp : b.param = p)
    (hamax : ∀ o ∈ log, o.station_id = sid → o.param = p → o.ts ≤ a.ts)
    (hbmax : ∀ o ∈ log, o.station_id = sid → o.param = p → o.ts ≤ b.ts) :
    a = b ∧ (latest_for_station log sid).filter (fun o => o.param == p) = [a] := by
  have hts : a.ts = b.ts :=
    le_antisymm (hbmax a ha hasid hap) (hamax b hb hbsid hbp)
  have hab : a = b := huniq a ha b hb (hasid.trans hbsid.symm) hts (hap.trans hbp.symm)
  obtain ⟨e, hfil, hemem, hesid, hep, hemax⟩ :=
    latest_filter_spec log sid p ⟨a, ha, hasid, hap⟩
  have hts2 : e.ts = a.ts :=
    le_antisymm (hamax e hemem hesid hep) (hemax a ha hasid hap)
  have : e = a := huniq e hemem a ha (hesid.trans hasid.symm) hts2 (hep.trans hap.symm)
  exact ⟨hab, this ▸ hfil⟩

/-- Witness for C9 on the concrete log, at its unique maximal pm25 row of
station s1. -/
theorem c9_latest_deterministic_witness :
    (⟨"s1", 5, "pm25", 40⟩ : Obs) = ⟨"s1", 5, "pm25", 40⟩ ∧
    (latest_for_station logEx "s1").filter (fun o => o.param == "pm25") =
      [⟨"s1", 5, "pm25", 40⟩] :=
  c9_latest_deterministic logEx "s1" "pm25" (by decide)
    ⟨"s1", 5, "pm25", 40⟩ ⟨"s1", 5, "pm25", 40⟩ (by decide) (by decide)
    (by decide) (by decide) (by decide) (by decide) (by decide) (by decide)

/-- One input row of the `/heatmap` endpoint (`src/backend/main.py`,
`heatmap`): a station position with the latest value of the requested
parameter. -/
structure Sample where
  lon : ℚ
  lat : ℚ
  value : ℚ
deriving DecidableEq, Repr

/-- An `HTTPException`: status code and detail string. -/
structure HTTPError where
  status : ℕ
  detail : String
deriving DecidableEq, Repr

/-- `numpy.linspace a b n`: `n` evenly spaced points from `a` to `b`,
endpoints included. -/
def linspace (a b : ℚ) (n : ℕ) : List ℚ :=
  if n = 0 then []
  else if n = 1 then [a]
  else (List.range n).map (fun k => a + (b - a) * k / ((n : ℚ) - 1))

/-- Minimum of `f` over a list of samples (`numpy` `.min(axis=0)`);
`0` on the empty list, which the endpoint never queries. -/
def foldMinBy (f : Sample → ℚ) : List Sample → ℚ
  | [] => 0
  | s :: rest => rest.foldl (fun m x => min m (f x)) (f s)

/-- Maximum of `f` over a list of samples (`numpy` `.max(axis=0)`). -/
def foldMaxBy (f : Sample → ℚ) : List Sample → ℚ
  | [] => 0
  | s :: rest => rest.foldl (fun m x => max m (f x)) (f s)

/-- Barycentric linear interpolation of the query point `q = (lon, lat)`
inside the triangle of samples `a b c`: if the triangle is non-degenerate
and `q` lies inside it (all barycentric weights non-negative), the value
interpolated linearly from the three sample values; otherwise none. -/
def triInterp (a b c : Sample) (q : ℚ × ℚ) : Option ℚ :=
  let d := (b.lon - a.lon) * (c.lat - a.lat) - (c.lon - a.lon) * (b.lat - a.lat)
  if d = 0 then none
  else
    let bw := ((q.1 - a.lon) * (c.lat - a.lat) - (c.lon - a.lon) * (q.2 - a.lat)) / d
    let cw := ((b.lon - a.lon) * (q.2 - a.lat) - (q.1 - a.lon) * (b.lat - a.lat)) / d
    let aw := 1 - bw - cw
    if 0 ≤ aw ∧ 0 ≤ bw ∧ 0 ≤ cw then
      some (aw * a.value + bw * b.value + cw * c.value)
    else none

/-- Model of `scipy.interpolate.griddata(points, values, q, method=linear)`:
the input points are triangulated and the value at `q` is interpolated
linearly inside the simplex containing `q`; a query point contained in no
triangle of sample points (in particular any point outside the convex hull)
gets `NaN`, modelled as `none`. The model scans all triangles of sample
points instead of a Delaunay triangulation; inside the hull both pick a
containing triangle and interpolate linearly in it, outside both yield no
value. -/
def griddataLinear (samples : List Sample) (q : ℚ × ℚ) : Option ℚ :=
  samples.findSome? fun a =>
    samples.findSome? fun b =>
      samples.findSome? fun c => triInterp a b c q

/-- The longitude axis of the heatmap grid: the sample bounding box padded
by 0.5 on each side (`pad = 0.5` in the source), `grid_size` points. -/
def gridLon (samples : List Sample) (grid_size : ℕ) : List ℚ :=
  linspace (foldMinBy (fun s => s.lon) samples - 0.5)
    (foldMaxBy (fun s => s.lon) samples + 0.5) grid_size

/-- The latitude axis of the heatmap grid. -/
def gridLat (samples : List Sample) (grid_size : ℕ) : List ℚ :=
  linspace (foldMinBy (fun s => s.lat) samples - 0.5)
    (foldMaxBy (fun s => s.lat) samples + 0.5) grid_size

/-- The full interpolation grid of the `heatmap` endpoint: for every cell
`(i, j)` of the `grid_size × grid_size` mesh, the cell center
`(grid_lat[i], grid_lon[j])` and the (optional) interpolated value of
`grid_z[i, j]`. -/
def interpGrid (samples : List Sample) (grid_size : ℕ) : List (ℚ × ℚ × Option ℚ) :=
  (List.range grid_size).flatMap fun i =>
    (List.range grid_size).map fun j =>
      ((gridLat samples grid_size).getD i 0, (gridLon samples grid_size).getD j 0,
        griddataLinear samples
          ((gridLon samples grid_size).getD j 0, (gridLat samples grid_size).getD i 0))

/-- Serialization step of the `heatmap` endpoint: keep only the cells whose
value is not NaN (`if not np.isnan(val)`), each as
`[grid_lat[i], grid_lon[j], val]`. -/
def serializeGrid (grid : List (ℚ × ℚ × Option ℚ)) : List (ℚ × ℚ × ℚ) :=
  grid.filterMap fun cell => cell.2.2.map fun v => (cell.1, cell.2.1, v)

/-- Embedding of the `/heatmap` endpoint (`src/backend/main.py`, lines
624-686): reject with HTTP 400 when fewer than 3 rows exist, otherwise lay
a padded `grid_size × grid_size` grid over the samples, interpolate
linearly, and emit the non-NaN cells. -/
def heatmap (samples : List Sample) (grid_size : ℕ) :
    Except HTTPError (List (ℚ × ℚ × ℚ)) :=
  if samples.length < 3 then
    .error ⟨400, "Not enough data points for interpolation"⟩
  else
    .ok (serializeGrid (interpGrid samples grid_size))

/-- The positions of the samples, as a point set in the plane. -/
def samplePoints (samples : List Sample) : Set (ℚ × ℚ) :=
  {p | ∃ s ∈ samples, p = (s.lon, s.lat)}

lemma foldl_min_le_init (f : Sample → ℚ) :
    ∀ (l : List Sample) (acc : ℚ), l.foldl (fun m x => min m (f x)) acc ≤ acc := by
  intro l
  induction l with
  | nil => intro acc; exact le_refl _
  | cons s rest ih =>
    intro acc
    calc rest.foldl (fun m x => min m (f x)) (min acc (f s)) ≤ min acc (f s) := ih _
      _ ≤ acc := min_le_left _ _

lemma foldl_min_le_mem (f : Sample → ℚ) :
    ∀ (l : List Sample) (acc : ℚ) (x : Sample), x ∈ l →
      l.foldl (fun m x => min m (f x)) acc ≤ f x := by
  intro l
  induction l with
  | nil => intro _ x hx; exact absurd hx (List.not_mem_nil x)
  | cons s rest ih =>
    intro acc x hx
    rcases List.mem_cons.mp hx with rfl | hx
    · calc rest.foldl (fun m y => min m (f y)) (min acc (f x)) ≤ min acc (f x) :=
          foldl_min_le_init f rest _
        _ ≤ f x := min_le_right _ _
    · exact ih _ x hx

lemma foldMinBy_le (f : Sample → ℚ) (l : List Sample) (x : Sample) (hx : x ∈ l) :
    foldMinBy f l ≤ f x := by
  cases l with
  | nil => exact absurd hx (List.not_mem_nil x)
  | cons s rest =>
    rcases List.mem_cons.mp hx with rfl | hx
    · calc foldMinBy f (x :: rest) = rest.foldl (fun m y => min m (f y)) (f x) := rfl
        _ ≤ f x := foldl_min_le_init f rest _
    · exact foldl_min_le_mem f rest _ x hx

lemma foldl_max_ge_init (f : Sample → ℚ) :
    ∀ (l : List Sample) (acc : ℚ), acc ≤ l.foldl (fun m x => max m (f x)) acc := by
  intro l
  induction l with
  | nil => intro acc; exact le_refl _
  | cons s rest ih =>
    intro acc
    calc acc ≤ max acc (f s) := le_max_left _ _
      _ ≤ rest.foldl (fun m x => max m (f x)) (max acc (f s)) := ih _

lemma foldl_max_ge_mem (f : Sample → ℚ) :
    ∀ (l : List Sample) (acc : ℚ) (x : Sample), x ∈ l →
      f x ≤ l.foldl (fun m x => max m (f x)) acc := by
  intro l
  induction l with
  | nil => intro _ x hx; exact absurd hx (List.not_mem_nil x)
  | cons s rest ih =>
    intro acc x hx
    rcases List.mem_cons.mp hx with rfl | hx
    · calc f x ≤ max acc (f x) := le_max_right _ _
        _ ≤ rest.foldl (fun m y => max m (f y)) (max acc (f x)) :=
          foldl_max_ge_init f rest _
    · exact ih _ x hx

lemma le_foldMaxBy (f : Sample → ℚ) (l : List Sample) (x : Sample) (hx : x ∈ l) :
    f x ≤ foldMaxBy f l := by
  cases l with
  | nil => exact absurd hx (List.not_mem_nil x)
  | cons s rest =>
    rcases List.mem_cons.mp hx with rfl | hx
    · calc f x ≤ rest.foldl (fun m y => max m (f y)) (f x) := foldl_max_ge_init f rest _
        _ = foldMaxBy f (x :: rest) := rfl
    · exact foldl_max_ge_mem f rest _ x hx

/-- Structure of a successful `triInterp`: the result is a convex
combination of the three sample values, and the query point is the same
convex combination of the three sample positions. -/
lemma triInterp_some (a b c : Sample) (q : ℚ × ℚ) (v : ℚ)
    (h : triInterp a b c q = some v) :
    ∃ aw bw cw : ℚ, 0 ≤ aw ∧ 0 ≤ bw ∧ 0 ≤ cw ∧ aw + bw + cw = 1 ∧
      v = aw * a.value + bw * b.value + cw * c.value ∧
      q.1 = aw * a.lon + bw * b.lon + cw * c.lon ∧
      q.2 = aw * a.lat + bw * b.lat + cw * c.lat := by
  unfold triInterp at h
  set d := (b.lon - a.lon) * (c.lat - a.lat) - (c.lon - a.lon) * (b.lat - a.lat) with hd
  by_cases hd0 : d = 0
  · rw [if_pos hd0] at h; exact absurd h (by simp)
  · rw [if_neg hd0] at h
    set bw := ((q.1 - a.lon) * (c.lat - a.lat) - (c.lon - a.lon) * (q.2 - a.lat)) / d
      with hbw
    set cw := ((b.lon - a.lon) * (q.2 - a.lat) - (q.1 - a.lon) * (b.lat - a.lat)) / d
      with hcw
    by_cases hw : 0 ≤ 1 - bw - cw ∧ 0 ≤ bw ∧ 0 ≤ cw
    · rw [if_pos hw] at h
      injection h with h
      refine ⟨1 - bw - cw, bw, cw, hw.1, hw.2.1, hw.2.2, by ring, h.symm, ?_, ?_⟩
      · rw [hbw, hcw]
        field_simp
        ring
      · rw [hbw, hcw]
        field_simp
        ring
    · rw [if_neg hw] at h; exact absurd h (by simp)

lemma griddataLinear_some (samples : List Sample) (q : ℚ × ℚ) (v : ℚ)
    (h : griddataLinear samples q = some v) :
    ∃ a ∈ samples, ∃ b ∈ samples, ∃ c ∈ samples, triInterp a b c q = some v := by
  obtain ⟨a, ha, h⟩ := List.exists_of_findSome?_eq_some h
  obtain ⟨b, hb, h⟩ := List.exists_of_findSome?_eq_some h
  obtain ⟨c, hc, h⟩ := List.exists_of_findSome?_eq_some h
  exact ⟨a, ha, b, hb, c, hc, h⟩

/-- A convex combination of three points of `S` lies in the convex hull
of `S`. -/
lemma combo3_mem_convexHull (S : Set (ℚ × ℚ)) (pa pb pc : ℚ × ℚ)
    (ha : pa ∈ S) (hb : pb ∈ S) (hc : pc ∈ S) (aw bw cw : ℚ)
    (haw : 0 ≤ aw) (hbw : 0 ≤ bw) (hcw : 0 ≤ cw) (hsum : aw + bw + cw = 1) :
    aw • pa + bw • pb + cw • pc ∈ convexHull ℚ S := by
  have hconv : Convex ℚ (convexHull ℚ S) := convex_convexHull ℚ S
  have hpa : pa ∈ convexHull ℚ S := subset_convexHull ℚ S ha
  have hpb : pb ∈ convexHull ℚ S := subset_convexHull ℚ S hb
  have hpc : pc ∈ convexHull ℚ S := subset_convexHull ℚ S hc
  by_cases ht : bw + cw = 0
  · have hb0 : bw = 0 := le_antisymm (by linarith) hbw
    have hc0 : cw = 0 := le_antisymm (by linarith) hcw
    have ha1 : aw = 1 := by linarith
    rw [hb0, hc0, ha1]
    simpa using hpa
  · have htpos : 0 < bw + cw := lt_of_le_of_ne (by linarith) (Ne.symm ht)
    have hm : (bw / (bw + cw)) • pb + (cw / (bw + cw)) • pc ∈ convexHull ℚ S :=
      hconv hpb hpc (div_nonneg hbw htpos.le) (div_nonneg hcw htpos.le)
        (by field_simp)
    have hfinal : aw • pa + (bw + cw) • ((bw / (bw + cw)) • pb +
        (cw / (bw + cw)) • pc) ∈ convexHull ℚ S :=
      hconv hpa hm haw htpos.le (by linarith)
    have heq : aw • pa + (bw + cw) • ((bw / (bw + cw)) • pb +
        (cw / (bw + cw)) • pc) = aw • pa + bw • pb + cw • pc := by
      rw [smul_add, smul_smul, smul_smul]
      rw [show (bw + cw) * (bw / (bw + cw)) = bw by field_simp]
      rw [show (bw + cw) * (cw / (bw + cw)) = cw by field_simp]
      rw [add_assoc]
    rw [heq] at hfinal
    exact hfinal

/-- A query point at which `griddataLinear` produces a value lies in the
convex hull of the sample positions, and the value lies between the least
and the greatest sample value. -/
lemma griddataLinear_some_bounds (samples : List Sample) (q : ℚ × ℚ) (v : ℚ)
    (h : griddataLinear samples q = some v) :
    q ∈ convexHull ℚ (samplePoints samples) ∧
      foldMinBy (fun s => s.value) samples ≤ v ∧
      v ≤ foldMaxBy (fun s => s.value) samples := by
  obtain ⟨a, ha, b, hb, c, hc, htri⟩ := griddataLinear_some samples q v h
  obtain ⟨aw, bw, cw, haw, hbw, hcw, hsum, hv, hq1, hq2⟩ := triInterp_some a b c q v htri
  constructor
  · have hmem : aw • (a.lon, a.lat) + bw • (b.lon, b.lat) + cw • (c.lon, c.lat) ∈
        convexHull ℚ (samplePoints samples) :=
      combo3_mem_convexHull (samplePoints samples)
        (a.lon, a.lat) (b.lon, b.lat) (c.lon, c.lat)
        ⟨a, ha, rfl⟩ ⟨b, hb, rfl⟩ ⟨c, hc, rfl⟩ aw bw cw haw hbw hcw hsum
    have hqeq : q = aw • (a.lon, a.lat) + bw • (b.lon, b.lat) + cw • (c.lon, c.lat) := by
      rcases q with ⟨q1, q2⟩
      simp only [Prod.mk_add_mk, Prod.smul_mk, smul_eq_mul, Prod.mk.injEq]
      exact ⟨hq1, hq2⟩
    rw [hqeq]
    exact hmem
  · set m := foldMinBy (fun s => s.value) samples with hm
    set M := foldMaxBy (fun s => s.value) samples with hM
    have hma : m ≤ a.value := foldMinBy_le _ _ _ ha
    have hmb : m ≤ b.value := foldMinBy_le _ _ _ hb
    have hmc : m ≤ c.value := foldMinBy_le _ _ _ hc
    have hMa : a.value ≤ M := le_foldMaxBy _ _ _ ha
    have hMb : b.value ≤ M := le_foldMaxBy _ _ _ hb
    have hMc : c.value ≤ M := le_foldMaxBy _ _ _ hc
    have h1 : aw * m ≤ aw * a.value := mul_le_mul_of_nonneg_left hma haw
    have h2 : bw * m ≤ bw * b.value := mul_le_mul_of_nonneg_left hmb hbw
    have h3 : cw * m ≤ cw * c.value := mul_le_mul_of_nonneg_left hmc hcw
    have h4 : aw * a.value ≤ aw * M := mul_le_mul_of_nonneg_left hMa haw
    have h5 : bw * b.value ≤ bw * M := mul_le_mul_of_nonneg_left hMb hbw
    have h6 : cw * c.value ≤ cw * M := mul_le_mul_of_nonneg_left hMc hcw
    have hmsum : aw * m + bw * m + cw * m = m := by
      rw [← add_mul, ← add_mul, hsum, one_mul]
    have hMsum : aw * M + bw * M + cw * M = M := by
      rw [← add_mul, ← add_mul, hsum, one_mul]
    constructor
    · rw [hv]; linarith
    · rw [hv]; linarith

/-- Every cell of `interpGrid` carries the interpolated value of its own
center. -/
lemma mem_interpGrid (samples : List Sample) (gs : ℕ)
    (cell : ℚ × ℚ × Option ℚ) (hcell : cell ∈ interpGrid samples gs) :
    cell.2.2 = griddataLinear samples (cell.2.1, cell.1) := by
  unfold interpGrid at hcell
  simp only [List.mem_flatMap, List.mem_map, List.mem_range] at hcell
  obtain ⟨i, _, j, _, rfl⟩ := hcell
  rfl

/-- The grid cell at indices `(i, j)` is a member of the grid. -/
lemma interpGrid_mem_of (samples : List Sample) (gs i j : ℕ)
    (hi : i < gs) (hj : j < gs) :
    ((gridLat samples gs).getD i 0, (gridLon samples gs).getD j 0,
      griddataLinear samples
        ((gridLon samples gs).getD j 0, (gridLat samples gs).getD i 0)) ∈
      interpGrid samples gs := by
  unfold interpGrid
  simp only [List.mem_flatMap, List.mem_map, List.mem_range]
  exact ⟨i, hi, j, hj, rfl⟩

/-- Membership in the serialized heatmap output: exactly the grid cells
that carry a value, with no other points. -/
lemma serializeGrid_mem_iff (grid : List (ℚ × ℚ × Option ℚ)) (la lo v : ℚ) :
    (la, lo, v) ∈ serializeGrid grid ↔ (la, lo, some v) ∈ grid := by
  unfold serializeGrid
  rw [List.mem_filterMap]
  constructor
  · rintro ⟨cell, hmem, heq⟩
    rcases cell with ⟨cla, clo, cv⟩
    dsimp only at heq
    rw [Option.map_eq_some'] at heq
    obtain ⟨w, hw, heq⟩ := heq
    simp only [Prod.mk.injEq] at heq
    obtain ⟨h1, h2, h3⟩ := heq
    subst h1
    subst h2
    subst h3
    rw [hw] at hmem
    exact hmem
  · intro hmem
    exact ⟨(la, lo, some v), hmem, rfl⟩

/-- If every sample has non-negative longitude, so does every point of the
convex hull of the sample positions. -/
lemma hull_lon_nonneg (samples : List Sample)
    (hall : ∀ s ∈ samples, 0 ≤ s.lon) :
    ∀ p ∈ convexHull ℚ (samplePoints samples), 0 ≤ p.1 := by
  have hsub : samplePoints samples ⊆ {p : ℚ × ℚ | 0 ≤ p.1} := by
    rintro p ⟨s, hs, rfl⟩
    exact hall s hs
  have hconv : Convex ℚ {p : ℚ × ℚ | 0 ≤ p.1} := by
    intro x hx y hy a b ha hb hab
    simp only [Set.mem_setOf_eq] at hx hy ⊢
    have : (a • x + b • y).1 = a * x.1 + b * y.1 := by
      simp [smul_eq_mul]
    rw [this]
    exact add_nonneg (mul_nonneg ha hx) (mul_nonneg hb hy)
  intro p hp
  exact convexHull_min hsub hconv hp

/-- C2: the heatmap endpoint rejects requests with fewer than 3 sample
rows with HTTP 400 (the insufficient-data client error) and computes the
interpolation grid whenever at least 3 rows exist. -/
theorem c2_insufficient_data (samples : List Sample) (gs : ℕ) :
    (samples.length < 3 →
      heatmap samples gs = .error ⟨400, "Not enough data points for interpolation"⟩) ∧
    (3 ≤ samples.length →
      heatmap samples gs = .ok (serializeGrid (interpGrid samples gs))) := by
  constructor
  · intro h
    unfold heatmap
    rw [if_pos h]
  · intro h
    unfold heatmap
    rw [if_neg (by omega)]

/-- Three non-collinear concrete samples. -/
def samplesEx : List Sample := [⟨0, 0, 10⟩, ⟨10, 0, 20⟩, ⟨0, 10, 30⟩]

/-- Two concrete samples, below the minimum for interpolation. -/
def samplesTwo : List Sample := [⟨0, 0, 10⟩, ⟨10, 0, 20⟩]

/-- Witness for C2 on a two-sample and a three-sample input. -/
theorem c2_insufficient_data_witness :
    heatmap samplesTwo 50 = .error ⟨400, "Not enough data points for interpolation"⟩ ∧
    heatmap samplesEx 50 = .ok (serializeGrid (interpGrid samplesEx 50)) :=
  ⟨(c2_insufficient_data samplesTwo 50).1 (by decide),
    (c2_insufficient_data samplesEx 50).2 (by decide)⟩

/-- C3: for at least 3 samples the grid has exactly
`grid_size * grid_size` cells, cells whose center lies outside the convex
hull of the samples carry no value, and the serialized output contains a
point exactly for each cell that carries a value — absent cells are
omitted, never replaced by a number. -/
theorem c3_grid_structure (samples : List Sample) (gs : ℕ)
    (h3 : 3 ≤ samples.length) :
    (interpGrid samples gs).length = gs * gs ∧
    (∀ la lo v?, (la, lo, v?) ∈ interpGrid samples gs →
      (lo, la) ∉ convexHull ℚ (samplePoints samples) → v? = none) ∧
    heatmap samples gs = .ok (serializeGrid (interpGrid samples gs)) ∧
    (∀ la lo v, (la, lo, v) ∈ serializeGrid (interpGrid samples gs) ↔
      (la, lo, some v) ∈ interpGrid samples gs) := by
  refine ⟨?_, ?_, ?_, ?_⟩
  · unfold interpGrid
    simp only [List.length_flatMap, Function.comp_def, List.length_map,
      List.length_range]
    rw [List.map_const', List.sum_replicate, List.length_range, smul_eq_mul]
  · intro la lo v? hmem hout
    cases hv : v? with
    | none => rfl
    | some v =>
      exfalso
      have hcell := mem_interpGrid samples gs (la, lo, v?) hmem
      dsimp only at hcell
      rw [hv] at hcell
      exact hout (griddataLinear_some_bounds samples (lo, la) v hcell.symm).1
  · unfold heatmap
    rw [if_neg (by omega)]
  · intro la lo v
    exact serializeGrid_mem_iff (interpGrid samples gs) la lo v

/-- Witness for C3 on the concrete three-sample input with a 3×3 grid:
9 cells, the padded corner cell (-1/2, -1/2) lies outside the hull and is
absent, and the serialized output relation holds at the interior point
(5, 5) whose value is 25. -/
theorem c3_grid_structure_witness :
    (interpGrid samplesEx 3).length = 3 * 3 ∧
    griddataLinear samplesEx (-1/2, -1/2) = none ∧
    heatmap samplesEx 3 = .ok (serializeGrid (interpGrid samplesEx 3)) ∧
    (((5 : ℚ), (5 : ℚ), (25 : ℚ)) ∈ serializeGrid (interpGrid samplesEx 3) ↔
      ((5 : ℚ), (5 : ℚ), some (25 : ℚ)) ∈ interpGrid samplesEx 3) := by
  have h := c3_grid_structure samplesEx 3 (by decide)
  refine ⟨h.1, ?_, h.2.2.1, h.2.2.2 5 5 25⟩
  have hlat0 : (gridLat samplesEx 3).getD 0 0 = -1/2 := by
    norm_num [gridLat, linspace, foldMinBy, foldMaxBy, samplesEx, List.range_succ]
  have hlon0 : (gridLon samplesEx 3).getD 0 0 = -1/2 := by
    norm_num [gridLon, linspace, foldMinBy, foldMaxBy, samplesEx, List.range_succ]
  have hmem : ((-1/2 : ℚ), (-1/2 : ℚ),
      griddataLinear samplesEx (-1/2, -1/2)) ∈ interpGrid samplesEx 3 := by
    have := interpGrid_mem_of samplesEx 3 0 0 (by norm_num) (by norm_num)
    rwa [hlat0, hlon0] at this
  have hout : ((-1/2 : ℚ), (-1/2 : ℚ)) ∉ convexHull ℚ (samplePoints samplesEx) := by
    intro hin
    have := hull_lon_nonneg samplesEx (by decide) _ hin
    norm_num at this
  exact h.2.1 (-1/2) (-1/2) (griddataLinear samplesEx (-1/2, -1/2)) hmem hout

/-- C10: every value emitted in the heatmap output lies between the least
and the greatest input sample value — linear interpolation inside the
convex hull never produces an estimate more extreme than an observed
reading. -/
theorem c10_no_overshoot (samples : List Sample) (gs : ℕ)
    (h3 : 3 ≤ samples.length) (pts : List (ℚ × ℚ × ℚ))
    (hok : heatmap samples gs = .ok pts) (la lo v : ℚ)
    (hmem : (la, lo, v) ∈ pts) :
    foldMinBy (fun s => s.value) samples ≤ v ∧
      v ≤ foldMaxBy (fun s => s.value) samples := by
  have hpts : pts = serializeGrid (interpGrid samples gs) := by
    unfold heatmap at hok
    rw [if_neg (by omega)] at hok
    injection hok with hok
    exact hok.symm
  rw [hpts] at hmem
  have hcellmem : (la, lo, some v) ∈ interpGrid samples gs :=
    (serializeGrid_mem_iff (interpGrid samples gs) la lo v).mp hmem
  have hcell := mem_interpGrid samples gs (la, lo, some v) hcellmem
  dsimp only at hcell
  exact (griddataLinear_some_bounds samples (lo, la) v hcell.symm).2

/-- Witness for C10 at the emitted interior point (5, 5, 25) of the
three-sample heatmap: 10 ≤ 25 and 25 ≤ 30. -/
theorem c10_no_overshoot_witness :
    foldMinBy (fun s => s.value) samplesEx ≤ 25 ∧
      (25 : ℚ) ≤ foldMaxBy (fun s => s.value) samplesEx := by
  have hlat1 : (gridLat samplesEx 3).getD 1 0 = 5 := by
    norm_num [gridLat, linspace, foldMinBy, foldMaxBy, samplesEx, List.range_succ]
  have hlon1 : (gridLon samplesEx 3).getD 1 0 = 5 := by
    norm_num [gridLon, linspace, foldMinBy, foldMaxBy, samplesEx, List.range_succ]
  have hval : griddataLinear samplesEx (5, 5) = some 25 := by
    norm_num [griddataLinear, List.findSome?, triInterp, samplesEx]
  have hmem : ((5 : ℚ), (5 : ℚ), (25 : ℚ)) ∈ serializeGrid (interpGrid samplesEx 3) := by
    rw [serializeGrid_mem_iff]
    have := interpGrid_mem_of samplesEx 3 1 1 (by norm_num) (by norm_num)
    rwa [hlat1, hlon1, hval] at this
  exact c10_no_overshoot samplesEx 3 (by decide)
    (serializeGrid (interpGrid samplesEx 3)) (by norm_num [heatmap, samplesEx]) 5 5 25 hmem

/-- A row of the `stations` table as fetched by `stations_geojson`
(`src/backend/main.py`, line 345): id, name, city, the params JSONB blob
(kept opaque as a string), the last update timestamp, the geometry
coordinates (`ST_X`, `ST_Y`) and its GeoJSON text. -/
structure StationRow where
  station_id : String
  name : String
  city : String
  params : String
  last_update : Option String
  lon : ℚ
  lat : ℚ
  geomjson : Option String
deriving DecidableEq, Repr

/-- A GeoJSON feature as built by `station_row_to_feature`
(`src/backend/main.py`, lines 292-302); `isoformat` and `json.loads` are
modelled as the identity on the stored strings. -/
structure Feature where
  station_id : String
  name : String
  city : String
  params : String
  last_update : Option String
  geometry : Option String
deriving DecidableEq, Repr

/-- Embedding of `station_row_to_feature` (`src/backend/main.py`,
lines 292-302). -/
def station_row_to_feature (row : StationRow) : Feature :=
  ⟨row.station_id, row.name, row.city, row.params, row.last_update, row.geomjson⟩

/-- The cache backend (Redis): `get` and `set`, each of which can either
return normally or raise; `Except.error` models a raised exception. -/
structure Cache where
  get : String → Except String (Option String)
  set : String → String → Except String Unit

/-- The cache key of `stations_geojson`:
`f"stations:{lat_min}:{lon_min}:{lat_max}:{lon_max}"`. -/
def cacheKey (latMin lonMin latMax lonMax : Option ℚ) : String :=
  s!"stations:{latMin}:{lonMin}:{latMax}:{lonMax}"

/-- The bounding-box filter of `stations_geojson`: applied only when all
four coordinates are given (`if None not in (...)`), with inclusive
`BETWEEN` bounds on `ST_X` (longitude) and `ST_Y` (latitude). -/
def bboxFilter (db : List StationRow) (latMin lonMin latMax lonMax : Option ℚ) :
    List StationRow :=
  match latMin, lonMin, latMax, lonMax with
  | some la1, some lo1, some la2, some lo2 =>
    db.filter (fun r => decide (lo1 ≤ r.lon ∧ r.lon ≤ lo2 ∧ la1 ≤ r.lat ∧ r.lat ≤ la2))
  | _, _, _, _ => db

/-- `json.dumps` of the feature collection, modelled as a plain
serialization of the feature list. -/
def serializeFeatures (features : List Feature) : String :=
  toString (repr features)

/-- The response of `stations_geojson`: either the cached payload returned
as-is (`json.loads(cached_data)`) or a freshly computed feature list. -/
inductive GeoResponse where
  | fromCache (payload : String)
  | fresh (features : List Feature)
deriving DecidableEq, Repr

/-- Embedding of the `stations_geojson` endpoint (`src/backend/main.py`,
lines 327-362; same logic in `src/app.py`, lines 111-149). `redis = none`
models `REDIS_CLIENT = None` (the client is disabled when the connection
or ping fails at startup). The cache read `await REDIS_CLIENT.get(...)`
and the write `await REDIS_CLIENT.set(...)` are not wrapped in any
`try/except` in the source, so a raising call propagates:
a `Cache` operation returning `Except.error` makes the whole endpoint
return that error. -/
def stations_geojson (db : List StationRow) (redis : Option Cache)
    (latMin lonMin latMax lonMax : Option ℚ) (force_refresh : Bool) :
    Except String GeoResponse :=
  let key := cacheKey latMin lonMin latMax lonMax
  let cachedStep : Except String (Option String) :=
    match redis, force_refresh with
    | some c, false => c.get key
    | _, _ => Except.ok none
  match cachedStep with
  | .error e => .error e
  | .ok (some s) => .ok (.fromCache s)
  | .ok none =>
    let features := (bboxFilter db latMin lonMin latMax lonMax).map station_row_to_feature
    match redis with
    | some c =>
      match c.set key (serializeFeatures features) with
      | .error e => .error e
      | .ok _ => .ok (.fresh features)
    | none => .ok (.fresh features)

/-- A cache backend that raises on every read, as a Redis client whose
server became unreachable after startup does. -/
def badCache : Cache :=
  ⟨fun _ => .error "redis connection refused", fun _ _ => .ok ()⟩

/-- Counterexample to C6 as stated: with a connected-at-startup cache
whose read raises during the request, the request fails with the
cache-layer error instead of degrading to a computed result. -/
theorem c6_counterexample_cache_error_propagates :
    stations_geojson [] (some badCache) none none none none false =
      .error "redis connection refused" := rfl

/-- C6 (amended): when the cache backend is detected unavailable at
startup the client is disabled (`none`) and every request computes the
result from the persistent store without failing; but an error raised by
a cache read during request handling propagates to the caller and fails
the request. -/
theorem c6_cache_degradation (db : List StationRow)
    (latMin lonMin latMax lonMax : Option ℚ) (force_refresh : Bool) :
    (stations_geojson db none latMin lonMin latMax lonMax force_refresh =
      .ok (.fresh ((bboxFilter db latMin lonMin latMax lonMax).map
        station_row_to_feature))) ∧
    (∀ c e, c.get (cacheKey latMin lonMin latMax lonMax) = Except.error e →
      stations_geojson db (some c) latMin lonMin latMax lonMax false =
        .error e) := by
  constructor
  · rfl
  · intro c e h
    unfold stations_geojson
    dsimp only
    rw [h]

/-- Witness for C6 (amended): the empty store with no cache succeeds; the
raising cache fails the request. -/
theorem c6_cache_degradation_witness :
    stations_geojson [] none none none none none false = .ok (.fresh []) ∧
    stations_geojson [] (some badCache) none none none none false =
      .error "redis connection refused" :=
  ⟨(c6_cache_degradation [] none none none none false).1,
    (c6_cache_degradation [] none none none none false).2 badCache
      "redis connection refused" rfl⟩

/-- Embedding of `get_aqi_category` from
`src/dashboard/layout_playground.py` (lines 47-59): the simplified
4-label AQI-index table with breakpoints 50, 100, 150, 200, 300. -/
def get_aqi_category (aqi_value : ℚ) : String :=
  if aqi_value ≤ 50 then "Good"
  else if aqi_value ≤ 100 then "Moderate"
  else if aqi_value ≤ 150 then "Unhealthy"
  else if aqi_value ≤ 200 then "Unhealthy"
  else if aqi_value ≤ 300 then "Hazardous"
  else "Hazardous"

/-- Embedding of `simplify_category` from `src/dashboard/app.py`
(lines 38-44): collapse the backend's 6 tiers to the 4-color design
system. -/
def simplify_category (cat : String) : String :=
  if cat = "Unhealthy for Sensitive Groups" ∨ cat = "Unhealthy" then "Unhealthy"
  else if cat = "Very Unhealthy" ∨ cat = "Hazardous" then "Hazardous"
  else cat

/-- The per-station aggregate consumed by the overview feature builder:
station metadata with the latest PM2.5 value and the latest AQI value
when one exists. -/
structure StationLatest where
  station_id : String
  name : String
  city : String
  pm25 : ℚ
  aqi : Option ℚ
deriving DecidableEq, Repr

/-- Modelled from the spec: the category rule of the overview feature
builder. The backend code that attaches a `category` property to each
station feature is not under `src/` — the dashboard consumers read
`properties["category"]` and `src/tests/test_backend.py` imports the
richer feature builder, but the builder itself is missing — so the rule
is taken from the spec: "category derived from AQI if present and > 0,
else from PM2.5", with the AQI-index table for AQI values and the
PM2.5 table (`health_risk`) for concentrations. -/
def overviewCategory (aqi : Option ℚ) (pm25 : ℚ) : String :=
  match aqi with
  | some a => if 0 < a then get_aqi_category a else (health_risk pm25).level
  | none => (health_risk pm25).level

/-- An overview feature record: station metadata, latest values and the
computed risk category. -/
structure OverviewFeature where
  station_id : String
  name : String
  city : String
  pm25 : ℚ
  aqi : Option ℚ
  category : String
deriving DecidableEq, Repr

/-- Modelled from the spec: build the feature record of one station,
always attaching the computed category. -/
def mkOverviewFeature (s : StationLatest) : OverviewFeature :=
  ⟨s.station_id, s.name, s.city, s.pm25, s.aqi, overviewCategory s.aqi s.pm25⟩

/-- Modelled from the spec: `latest_overview` returns one feature record
per station. -/
def latest_overview (stations : List StationLatest) : List OverviewFeature :=
  stations.map mkOverviewFeature

/-- C7: every station's feature record appears in `latest_overview` and
carries the computed risk category: from the AQI value when present and
positive, otherwise from the PM2.5 value. -/
theorem c7_overview_category (stations : List StationLatest)
    (s : StationLatest) (hs : s ∈ stations) :
    mkOverviewFeature s ∈ latest_overview stations ∧
    (mkOverviewFeature s).category = overviewCategory s.aqi s.pm25 ∧
    (∀ a, s.aqi = some a → 0 < a →
      (mkOverviewFeature s).category = get_aqi_category a) ∧
    (∀ a, s.aqi = some a → ¬ 0 < a →
      (mkOverviewFeature s).category = (health_risk s.pm25).level) ∧
    (s.aqi = none → (mkOverviewFeature s).category = (health_risk s.pm25).level) := by
  refine ⟨List.mem_map_of_mem mkOverviewFeature hs, rfl, ?_, ?_, ?_⟩
  · intro a ha hpos
    show overviewCategory s.aqi s.pm25 = get_aqi_category a
    rw [ha]
    simp [overviewCategory, hpos]
  · intro a ha hpos
    show overviewCategory s.aqi s.pm25 = (health_risk s.pm25).level
    rw [ha]
    simp [overviewCategory, hpos]
  · intro ha
    show overviewCategory s.aqi s.pm25 = (health_risk s.pm25).level
    rw [ha]
    rfl

/-- A concrete station aggregate with a positive AQI value. -/
def stationEx : StationLatest := ⟨"s1", "Station 1", "Jakarta", 15, some 75⟩

/-- Witness for C7 at a station with AQI 75: the feature is in the
overview and its category is the AQI-derived one. -/
theorem c7_overview_category_witness :
    mkOverviewFeature stationEx ∈ latest_overview [stationEx] ∧
    (mkOverviewFeature stationEx).category =
      overviewCategory stationEx.aqi stationEx.pm25 ∧
    (mkOverviewFeature stationEx).category = get_aqi_category 75 := by
  have h := c7_overview_category [stationEx] stationEx (List.mem_singleton.mpr rfl)
  exact ⟨h.1, h.2.1, h.2.2.1 75 rfl (by norm_num)⟩

end AirQuality
